import Mathlib

/-!
Verification of the generic-list adapter layer and ASCII tokenizer of the
LinkedList repository (files `UserDefined.c`, `UserDefined.h`, `FileIO.c`,
`FileIO.h`).  The C code is shallowly embedded: the record type `myData`
becomes a Lean structure, comparison functions become total Lean functions,
the GLib list `GList *` becomes `List (Option myData)` (a data pointer may
be NULL), the C stream (`FILE *` with its end-of-file indicator) becomes an
explicit `CStream` state, and heap allocation is instrumented through an
explicit `Heap` state with an availability oracle.  Loops that the C code
cannot exit (reading past end of file inside the comment-skip loop) are
reflected as `Option` results where `none` marks divergence.
-/

/-- C constant `EXIT_SUCCESS` (stdlib). -/
def EXIT_SUCCESS : Int := 0

/-- C constant `EXIT_FAILURE` (stdlib). -/
def EXIT_FAILURE : Int := 1

/-- C constant `EOF` (stdio), returned by `getc` at end of file. -/
def EOF : Int := -1

/-- Value `LESS` of `enum order {LESS = -1, EQUAL = 0, GREATER = 1, NOTEQUAL = 2}`
in `UserDefined.h`. -/
def LESS : Int := -1

/-- Value `EQUAL` of `enum order` in `UserDefined.h`. -/
def EQUAL : Int := 0

/-- Value `GREATER` of `enum order` in `UserDefined.h`. -/
def GREATER : Int := 1

/-- Value `NOTEQUAL` of `enum order` in `UserDefined.h`. -/
def NOTEQUAL : Int := 2

/-- Value `INT` of `enum theKey {INT = 1, STR, SINGLEINT, SINGLESTR}` in
`UserDefined.h`. -/
def INT : Int := 1

/-- Value `STR` of `enum theKey` in `UserDefined.h`. -/
def STR : Int := 2

/-- Value `SINGLEINT` of `enum theKey` in `UserDefined.h`. -/
def SINGLEINT : Int := 3

/-- Value `SINGLESTR` of `enum theKey` in `UserDefined.h`. -/
def SINGLESTR : Int := 4

/-- The user-defined record `struct myData_ { int number; char * theString; }`
of `UserDefined.h`.  The C string pointed to by `theString` is modelled by its
contents; `strcmp(x, y) == 0` corresponds to equality of the contents. -/
structure myData where
  number : Int
  theString : String
deriving DecidableEq, Repr

/-- Embedding of `CompareItems` (`UserDefined.c`): compares only the `number`
fields and returns the `enum order` value `LESS`, `GREATER` or `EQUAL`. -/
def CompareItems (item1 item2 : myData) : Int :=
  if item1.number < item2.number then LESS
  else if item1.number > item2.number then GREATER
  else EQUAL

/-- The second argument of `CompareItemsWithKey` is a `const void *` that the C
code reinterprets according to `key`: as a pointer to a record (`INT`, `STR`),
to an `int` (`SINGLEINT`), or to a string (`SINGLESTR`).  The sum type records
which object the pointer designates. -/
inductive Operand where
  | node (r : myData)
  | intVal (n : Int)
  | strVal (s : String)
deriving DecidableEq, Repr

/-- Embedding of `CompareItemsWithKey` (`UserDefined.c`): the `switch` on
`key` with the four `enum theKey` cases and a `NOTEQUAL` default.  A branch
whose cast does not match the object actually designated by `item2_p` is
undefined behaviour in C; those cases are mapped to `NOTEQUAL` here and no
theorem relies on them. -/
def CompareItemsWithKey (item1 : myData) (item2 : Operand) (key : Int) : Int :=
  if key = INT then
    match item2 with
    | .node b => CompareItems item1 b
    | _ => NOTEQUAL
  else if key = STR then
    match item2 with
    | .node b => if item1.theString = b.theString then EQUAL else NOTEQUAL
    | _ => NOTEQUAL
  else if key = SINGLESTR then
    match item2 with
    | .strVal s => if item1.theString = s then EQUAL else NOTEQUAL
    | _ => NOTEQUAL
  else if key = SINGLEINT then
    match item2 with
    | .intVal n => if item1.number = n then EQUAL else NOTEQUAL
    | _ => NOTEQUAL
  else NOTEQUAL

/-- Embedding of `PrintItem` (`UserDefined.c`), instrumented with its output:
a NULL `data_p` yields `EXIT_FAILURE` and prints nothing, otherwise the record
is printed and `EXIT_SUCCESS` is returned.  The trace component lists the
records whose fields were written to standard output. -/
def PrintItemOut (data : Option myData) : Int × List myData :=
  match data with
  | none => (EXIT_FAILURE, [])
  | some r => (EXIT_SUCCESS, [r])

/-- The `while` loop of `PrintList` (`UserDefined.c`): calls `PrintItem` on
each element and returns `EXIT_FAILURE` at the first failure, abandoning the
rest of the list.  The trace component accumulates the printed records. -/
def printLoop : List (Option myData) → Int × List myData
  | [] => (EXIT_SUCCESS, [])
  | d :: rest =>
    let r1 := PrintItemOut d
    if r1.1 = EXIT_FAILURE then (EXIT_FAILURE, r1.2)
    else
      let r2 := printLoop rest
      (r2.1, r1.2 ++ r2.2)

/-- Embedding of `PrintList` (`UserDefined.c`): a NULL list (`[]`, since the
empty GLib list is the NULL pointer) returns `EXIT_FAILURE` at once; otherwise
the element loop runs. -/
def PrintList (myList : List (Option myData)) : Int × List myData :=
  match myList with
  | [] => (EXIT_FAILURE, [])
  | l => printLoop l

/-- Embedding of `FreeItem` (`UserDefined.c`) restricted to its result and to
the identity of the freed record: a NULL `data_p` yields `EXIT_FAILURE`,
otherwise the record is freed (`free(data_p)`) and `EXIT_SUCCESS` returned.
The heap-level effects of `FreeItem` are modelled separately by `FreeItemH`. -/
def FreeItemOut (data : Option myData) : Int × List myData :=
  match data with
  | none => (EXIT_FAILURE, [])
  | some r => (EXIT_SUCCESS, [r])

/-- The `for` loop of `DestroyList` (`UserDefined.c`): calls `FreeItem` on the
data of each element and returns `EXIT_FAILURE` at the first failure,
abandoning the rest of the list.  The trace accumulates the freed records. -/
def destroyLoop : List (Option myData) → Int × List myData
  | [] => (EXIT_SUCCESS, [])
  | d :: rest =>
    let r1 := FreeItemOut d
    if r1.1 = EXIT_FAILURE then (EXIT_FAILURE, r1.2)
    else
      let r2 := destroyLoop rest
      (r2.1, r1.2 ++ r2.2)

/-- Embedding of `DestroyList` (`UserDefined.c`): a NULL list returns
`EXIT_FAILURE`; otherwise the element loop runs. -/
def DestroyList (theList : List (Option myData)) : Int × List myData :=
  match theList with
  | [] => (EXIT_FAILURE, [])
  | l => destroyLoop l

/-- Heap model used to instrument `NewItem` and `FreeItem`.  `count` is the
number of allocation attempts made so far, `ok k` says whether the `k`-th
attempt obtains memory (the availability oracle — C gives no guarantee),
and `live` lists the addresses currently allocated.  The address of a block
is its allocation index, so addresses are never reused. -/
structure Heap where
  count : Nat
  ok : Nat → Bool
  live : List Nat

/-- C `malloc` (also the allocation inside `strdup`): returns the fresh
address on success and NULL (`none`) on failure; either way one allocation
attempt is consumed. -/
def mallocH (h : Heap) : Option Nat × Heap :=
  if h.ok h.count then
    (some h.count, { count := h.count + 1, ok := h.ok, live := h.count :: h.live })
  else
    (none, { count := h.count + 1, ok := h.ok, live := h.live })

/-- C `free` on an address: the block leaves the live set. -/
def freeH (p : Nat) (h : Heap) : Heap :=
  { count := h.count, ok := h.ok, live := h.live.erase p }

/-- A record object as laid out by `NewItem`: the address of the
`struct myData_` block, the stored `number`, and the pointer stored in
`theString` (`none` models a NULL pointer, as stored when `strdup` fails). -/
structure nodeObj where
  addr : Nat
  number : Int
  strPtr : Option Nat
deriving DecidableEq, Repr

/-- Outcome of running `NewItem`: either the function returns a (possibly
partially initialised) record, or it writes through the NULL result of an
unchecked failed `malloc` (`newNode->number = theNumber`), which is the
undefined behaviour marked by `nullDeref`. -/
inductive NewItemResult where
  | ok (node : nodeObj) (h : Heap)
  | nullDeref (h : Heap)

/-- Heap-instrumented embedding of `NewItem` (`UserDefined.c`).  The source is
exactly: `newNode = malloc(...); newNode->number = theNumber;
newNode->theString = strdup(theString); return newNode;` — the `malloc` result
is dereferenced without a check, and the `strdup` result is stored without a
check. -/
def NewItemH (theNumber : Int) (theString : String) (h : Heap) : NewItemResult :=
  match mallocH h with
  | (none, h1) => .nullDeref h1
  | (some a, h1) =>
    match mallocH h1 with
    | (none, h2) => .ok ⟨a, theNumber, none⟩ h2
    | (some sp, h2) =>
      let _ := theString
      .ok ⟨a, theNumber, some sp⟩ h2

/-- Heap-instrumented embedding of `FreeItem` (`UserDefined.c`): a NULL
`data_p` yields `EXIT_FAILURE`; otherwise the code runs `free((void *)data_p)`
— it frees only the record block and never touches the block held by
`theString`. -/
def FreeItemH (data : Option nodeObj) (h : Heap) : Int × Heap :=
  match data with
  | none => (EXIT_FAILURE, h)
  | some nd => (EXIT_SUCCESS, freeH nd.addr h)

/-- The composition `Destroy(Construct(number, text))` of the spec:
run `NewItem` and then `FreeItem` on its result.  `none` marks the run in
which `NewItem` already crashed on a NULL dereference. -/
def destroyAfterConstruct (n : Int) (s : String) (h : Heap) : Option (Int × Heap) :=
  match NewItemH n s h with
  | .nullDeref _ => none
  | .ok nd h1 => some (FreeItemH (some nd) h1)

/-- Recognises the run of `NewItem` that dereferences the NULL `malloc`
result. -/
def isNullDeref : NewItemResult → Bool
  | .nullDeref _ => true
  | .ok _ _ => false

/-- Recognises a run of `NewItem` that returns normally but has stored a NULL
`theString` pointer (failed `strdup`): a partially constructed record. -/
def okWithNullStr : NewItemResult → Bool
  | .ok nd _ => nd.strPtr.isNone
  | .nullDeref _ => false

/-- C stream state for the tokenizer (`FileIO.c`): the characters not yet
read, as byte values, and the stream's end-of-file indicator (`feof`). -/
structure CStream where
  data : List Int
  eofFlag : Bool
deriving DecidableEq, Repr

/-- C `getc`: once the end-of-file indicator is set every call returns `EOF`;
otherwise the next character is consumed, and reading past the last character
returns `EOF` and sets the indicator. -/
def getc (s : CStream) : Int × CStream :=
  if s.eofFlag then (EOF, s)
  else
    match s.data with
    | [] => (EOF, ⟨[], true⟩)
    | c :: rest => (c, ⟨rest, false⟩)

/-- C `ungetc`: pushes the character back and clears the end-of-file
indicator. -/
def ungetc (c : Int) (s : CStream) : CStream :=
  ⟨c :: s.data, false⟩

/-- C `isdigit` on the values `getc` can produce (ASCII `'0'`–`'9'`). -/
def isdigitC (c : Int) : Bool :=
  48 ≤ c ∧ c ≤ 57

/-- C `isalpha` on the values `getc` can produce (ASCII letters). -/
def isalphaC (c : Int) : Bool :=
  (65 ≤ c ∧ c ≤ 90) ∨ (97 ≤ c ∧ c ≤ 122)

/-- The comment-skipping loop `do { c = getc(fp); } while (c != '\n');` shared
by `GetInt` and `GetString` (`FileIO.c`), entered after a `#` was read.  If no
newline (code 10) remains, `getc` keeps returning `EOF`, which never equals
`'\n'`, so the C loop runs forever: that divergence is `none`. -/
def skipComment : List Int → Option (List Int)
  | [] => none
  | c :: rest => if c = 10 then some rest else skipComment rest

theorem skipComment_length {l r : List Int} (h : skipComment l = some r) :
    r.length < l.length := by
  induction l with
  | nil => simp [skipComment] at h
  | cons c rest ih =>
    by_cases hc : c = 10
    · simp [skipComment, hc] at h
      subst h
      simp
    · simp [skipComment, hc] at h
      exact Nat.lt_trans (ih h) (by simp)

/-- The token-skipping `do … while (!isdigit(c) && !feof(fp))` loop of
`GetInt` (`FileIO.c`), running on the unread characters with the end-of-file
indicator clear.  Each iteration reads a character; a `#` (35) triggers the
comment skip (whose divergence propagates as `none`); a `-` (45) sets
`sign = -1` and the sign is never reset; the loop stops at the first digit, or
with `c = EOF` and the indicator set when the stream runs out. -/
def skipLoopGo : List Int → Int → Option (Int × Int × CStream)
  | [], sign => some (EOF, sign, ⟨[], true⟩)
  | c :: rest, sign =>
    if c = 35 then
      match h : skipComment rest with
      | none => none
      | some rest2 => skipLoopGo rest2 sign
    else
      if isdigitC c then some (c, if c = 45 then -1 else sign, ⟨rest, false⟩)
      else skipLoopGo rest (if c = 45 then -1 else sign)
termination_by l _ => l.length
decreasing_by
  · exact Nat.lt_trans (skipComment_length h) (by simp)
  · simp

/-- The skip loop of `GetInt` on a full stream state: if the end-of-file
indicator is already set, `getc` returns `EOF` at once, `EOF` is neither `#`
nor `-` nor a digit, and `feof` ends the loop. -/
def skipLoop (s : CStream) (sign : Int) : Option (Int × Int × CStream) :=
  if s.eofFlag then some (EOF, sign, s)
  else skipLoopGo s.data sign

/-- The digit-accumulation loop
`while (isdigit(c) && !feof(fp)) { i = i*10 + (c - '0'); c = getc(fp); }` of
`GetInt`, on the unread characters with the indicator clear.  When the data
runs out the final `getc` returns `EOF` and sets the indicator, and the loop
exits on the next test. -/
def digitLoopGo (c i : Int) (data : List Int) : Int × Int × CStream :=
  match data with
  | [] =>
    if isdigitC c then (EOF, i * 10 + (c - 48), ⟨[], true⟩)
    else (c, i, ⟨[], false⟩)
  | c2 :: rest =>
    if isdigitC c then digitLoopGo c2 (i * 10 + (c - 48)) rest
    else (c, i, ⟨c2 :: rest, false⟩)

/-- The digit-accumulation loop of `GetInt` on a full stream state. -/
def digitLoop (c i : Int) (s : CStream) : Int × Int × CStream :=
  if s.eofFlag then (c, i, s)
  else digitLoopGo c i s.data

/-- The tail of `GetInt` after its skip loop exited on a digit (`FileIO.c`):
accumulate the digits into `i`, read one further character as a lookahead,
push it back unless it is `EOF`, and return `i * sign`. -/
def getIntCont (c sign : Int) (s1 : CStream) : Int × CStream :=
  let r := digitLoop c 0 s1
  let l := getc r.2.2
  (r.2.1 * sign, if l.1 ≠ EOF then ungetc l.1 l.2 else l.2)

/-- Embedding of `GetInt` (`FileIO.c`).  `none` marks the diverging run (the
comment-skip loop never sees a newline); `some (v, s)` is the returned value
and the final stream state.  After the skip loop, `feof` true returns `EOF`;
otherwise `getIntCont` runs the digit accumulation and the lookahead. -/
def GetInt (s : CStream) : Option (Int × CStream) :=
  match skipLoop s 1 with
  | none => none
  | some (c, sign, s1) =>
    if s1.eofFlag then some (EOF, s1)
    else some (getIntCont c sign s1)

/-- The decimal value of a digit string, as accumulated by `GetInt`. -/
def decimalOf (ds : List Int) : Int :=
  ds.foldl (fun a x => a * 10 + (x - 48)) 0

/-- The token-skipping loop of `GetString` (`FileIO.c`): identical to the one
of `GetInt` except that it has no sign handling and stops at the first
alphabetic character. -/
def skipLoopAGo : List Int → Option (Int × CStream)
  | [] => some (EOF, ⟨[], true⟩)
  | c :: rest =>
    if c = 35 then
      match h : skipComment rest with
      | none => none
      | some rest2 => skipLoopAGo rest2
    else
      if isalphaC c then some (c, ⟨rest, false⟩)
      else skipLoopAGo rest
termination_by l => l.length
decreasing_by
  · exact Nat.lt_trans (skipComment_length h) (by simp)
  · simp

/-- The skip loop of `GetString` on a full stream state. -/
def skipLoopA (s : CStream) : Option (Int × CStream) :=
  if s.eofFlag then some (EOF, s)
  else skipLoopAGo s.data

/-- The accumulation loop
`while (isalpha(c) && !feof(fp) && (i < BUFSIZE)) { buffer[i] = c; i++; c = getc(fp); }`
of `GetString`, with `BUFSIZE = 256` (`FileIO.h`), on the unread characters
with the indicator clear.  The result carries the character that ended the
loop, the final index `i`, the buffer contents `buffer[0 .. i-1]`, and the
stream state. -/
def alphaLoopGo (c : Int) (i : Nat) (acc : List Int) (data : List Int) :
    Int × Nat × List Int × CStream :=
  match data with
  | [] =>
    if isalphaC c ∧ i < 256 then (EOF, i + 1, acc ++ [c], ⟨[], true⟩)
    else (c, i, acc, ⟨[], false⟩)
  | c2 :: rest =>
    if isalphaC c ∧ i < 256 then alphaLoopGo c2 (i + 1) (acc ++ [c]) rest
    else (c, i, acc, ⟨c2 :: rest, false⟩)

/-- The accumulation loop of `GetString` on a full stream state. -/
def alphaLoop (c : Int) (i : Nat) (acc : List Int) (s : CStream) :
    Int × Nat × List Int × CStream :=
  if s.eofFlag then (c, i, acc, s)
  else alphaLoopGo c i acc s.data

/-- Result of a terminating run of `GetString`: the returned string (`none`
models the NULL returned at end of file, `some w` the `strdup` of the buffer,
whose contents are `w`), the index at which the terminating `'\0'` was written
into the 256-byte `buffer` (`none` when the NULL path returns before any
write), and the final stream state. -/
structure GSOut where
  ret : Option (List Int)
  termIdx : Option Nat
  stream : CStream
deriving DecidableEq, Repr

/-- Embedding of `GetString` (`FileIO.c`).  `none` marks the diverging run of
the comment-skip loop.  On the success path the alphabetic characters are
accumulated into `buffer`, `buffer[i] = '\0'` is written at the final index
`i`, the one-character lookahead is read and pushed back unless it is `EOF`,
and a copy of the buffer is returned. -/
def GetString (s : CStream) : Option GSOut :=
  match skipLoopA s with
  | none => none
  | some (c, s1) =>
    if s1.eofFlag then some ⟨none, none, s1⟩
    else
      let r := alphaLoop c 0 [] s1
      let l := getc r.2.2.2
      some ⟨some r.2.2.1, some r.2.1, if l.1 ≠ EOF then ungetc l.1 l.2 else l.2⟩

/-- Shape of one item consumed by the skip loop of `GetInt` before the first
digit: either a single plain character, or an entire comment — the `#` that
starts it, its body, and the newline that ends it.  A prefix of such items
describes every skipped prefix, comments included. -/
inductive SkipItem where
  | plain (c : Int)
  | comment (body : List Int)
deriving DecidableEq, Repr

/-- The character stream spelled by a list of skip items. -/
def flattenSkip : List SkipItem → List Int
  | [] => []
  | .plain c :: its => c :: flattenSkip its
  | .comment b :: its => 35 :: (b ++ 10 :: flattenSkip its)

/-- A skip item the loop actually consumes without stopping: a plain
character is neither a digit (which ends the loop) nor a `#` (which starts a
comment), and a comment body contains no newline (the first newline ends the
comment). -/
def skipItemOK : SkipItem → Bool
  | .plain c => !isdigitC c && (c != 35)
  | .comment b => !(b.contains 10)

theorem compareItems_cases (x y : myData) :
    (CompareItems x y = LESS ↔ x.number < y.number) ∧
    (CompareItems x y = GREATER ↔ y.number < x.number) ∧
    (CompareItems x y = EQUAL ↔ x.number = y.number) := by
  unfold CompareItems LESS GREATER EQUAL
  split_ifs with h1 h2 <;> refine ⟨?_, ?_, ?_⟩ <;> simp <;> omega

/-- C1: `CompareItemsWithKey` with `key = STR` returns `EQUAL` exactly when
the two records' strings are equal and `NOTEQUAL` otherwise, never `LESS` or
`GREATER`; with `key = SINGLEINT` it returns `EQUAL` iff the record's `number`
equals the raw integer operand (else `NOTEQUAL`); with `key = SINGLESTR` it
returns `EQUAL` iff the record's string equals the raw string operand (else
`NOTEQUAL`); with `key = INT` it delegates to `CompareItems`; and any
unrecognized key yields `NOTEQUAL`. -/
theorem compareItemsWithKey_spec (a b : myData) (n : Int) (s : String) (key : Int) :
    ((CompareItemsWithKey a (.node b) STR = EQUAL ↔ a.theString = b.theString) ∧
     (a.theString ≠ b.theString → CompareItemsWithKey a (.node b) STR = NOTEQUAL) ∧
     CompareItemsWithKey a (.node b) STR ≠ LESS ∧
     CompareItemsWithKey a (.node b) STR ≠ GREATER) ∧
    ((CompareItemsWithKey a (.intVal n) SINGLEINT = EQUAL ↔ a.number = n) ∧
     (a.number ≠ n → CompareItemsWithKey a (.intVal n) SINGLEINT = NOTEQUAL)) ∧
    ((CompareItemsWithKey a (.strVal s) SINGLESTR = EQUAL ↔ a.theString = s) ∧
     (a.theString ≠ s → CompareItemsWithKey a (.strVal s) SINGLESTR = NOTEQUAL)) ∧
    CompareItemsWithKey a (.node b) INT = CompareItems a b ∧
    (key ≠ INT → key ≠ STR → key ≠ SINGLEINT → key ≠ SINGLESTR →
      ∀ op : Operand, CompareItemsWithKey a op key = NOTEQUAL) := by
  unfold CompareItemsWithKey INT STR SINGLEINT SINGLESTR
  refine ⟨⟨?_, ?_, ?_, ?_⟩, ⟨?_, ?_⟩, ⟨?_, ?_⟩, ?_, ?_⟩
  · by_cases h : a.theString = b.theString <;> simp [h, EQUAL, NOTEQUAL]
  · intro h; simp [h, NOTEQUAL]
  · by_cases h : a.theString = b.theString <;> simp [h, EQUAL, NOTEQUAL, LESS]
  · by_cases h : a.theString = b.theString <;> simp [h, EQUAL, NOTEQUAL, GREATER]
  · by_cases h : a.number = n <;> simp [h, EQUAL, NOTEQUAL]
  · intro h; simp [h, NOTEQUAL]
  · by_cases h : a.theString = s <;> simp [h, EQUAL, NOTEQUAL]
  · intro h; simp [h, NOTEQUAL]
  · simp
  · intro h1 h2 h3 h4 op
    simp [h1, h2, h3, h4]

/-- Witness for C1: the unrecognized key 7 yields `NOTEQUAL`. -/
theorem compareItemsWithKey_spec_witness :
    CompareItemsWithKey ⟨0, "q"⟩ (.node ⟨0, "q"⟩) 7 = NOTEQUAL :=
  (compareItemsWithKey_spec ⟨0, "q"⟩ ⟨0, "q"⟩ 0 "" 7).2.2.2.2
    (by decide) (by decide) (by decide) (by decide) (.node ⟨0, "q"⟩)

/-- C2: `CompareItems` orders strictly by the `number` field ascending and is
a total order: `LESS` iff the first number is smaller, `GREATER` iff it is
larger, `EQUAL` otherwise (regardless of the strings); it is antisymmetric,
transitive, consistent with `<` on `number`, and `CompareItems a a = EQUAL`. -/
theorem compareItems_total_order (a b c : myData) :
    (CompareItems a b = LESS ↔ a.number < b.number) ∧
    (CompareItems a b = GREATER ↔ b.number < a.number) ∧
    (CompareItems a b = EQUAL ↔ a.number = b.number) ∧
    (CompareItems a b = LESS ↔ CompareItems b a = GREATER) ∧
    (CompareItems a b = LESS → CompareItems b c = LESS → CompareItems a c = LESS) ∧
    CompareItems a a = EQUAL := by
  obtain ⟨hab1, hab2, hab3⟩ := compareItems_cases a b
  refine ⟨hab1, hab2, hab3, ?_, ?_, ?_⟩
  · rw [hab1, (compareItems_cases b a).2.1]
  · intro h1 h2
    rw [hab1] at h1
    rw [(compareItems_cases b c).1] at h2
    rw [(compareItems_cases a c).1]
    omega
  · exact (compareItems_cases a a).2.2.mpr rfl

/-- Witness for C2: transitivity applied at records numbered 1, 2, 3. -/
theorem compareItems_total_order_witness :
    CompareItems ⟨1, "x"⟩ ⟨3, "z"⟩ = LESS :=
  (compareItems_total_order ⟨1, "x"⟩ ⟨2, "y"⟩ ⟨3, "z"⟩).2.2.2.2.1
    (by decide) (by decide)

theorem skipComment_through (b : List Int) (hb : 10 ∉ b) (r : List Int) :
    skipComment (b ++ 10 :: r) = some r := by
  induction b with
  | nil => simp [skipComment]
  | cons x xs ih =>
    have hx : ¬ x = 10 := fun hx => hb (by simp [hx])
    rw [List.cons_append, skipComment, if_neg hx]
    exact ih (fun hm => hb (List.mem_cons_of_mem _ hm))

theorem skipLoopGo_comment (l r : List Int) (sg : Int)
    (h : skipComment l = some r) :
    skipLoopGo (35 :: l) sg = skipLoopGo r sg := by
  rw [skipLoopGo, if_pos rfl]
  split
  · simp_all
  · simp_all

theorem skipLoopGo_skip (items : List SkipItem)
    (hw : ∀ it ∈ items, skipItemOK it = true) (rest : List Int) (sg : Int) :
    skipLoopGo (flattenSkip items ++ rest) sg
      = skipLoopGo rest (if SkipItem.plain 45 ∈ items then -1 else sg) := by
  induction items generalizing sg with
  | nil => simp [flattenSkip]
  | cons it its ih =>
    have hw2 : ∀ x ∈ its, skipItemOK x = true :=
      fun x hx => hw x (List.mem_cons_of_mem _ hx)
    cases it with
    | plain c =>
      obtain ⟨hc1, hc2⟩ :
          isdigitC c = false ∧ ¬ c = 35 := by
        simpa [skipItemOK] using hw (.plain c) (List.mem_cons_self _ its)
      rw [show flattenSkip (.plain c :: its) = c :: flattenSkip its from rfl,
        List.cons_append, skipLoopGo, if_neg hc2, if_neg (by simp [hc1]),
        ih hw2]
      congr 1
      by_cases h45 : c = 45 <;> by_cases h45p : SkipItem.plain 45 ∈ its <;>
        simp [h45, h45p, List.mem_cons, eq_comm]
    | comment b =>
      have hb : 10 ∉ b := by
        simpa [skipItemOK] using hw (.comment b) (List.mem_cons_self _ its)
      have hsc : skipComment ((b ++ 10 :: flattenSkip its) ++ rest)
          = some (flattenSkip its ++ rest) := by
        rw [List.append_assoc, List.cons_append]
        exact skipComment_through b hb _
      rw [show flattenSkip (.comment b :: its) = 35 :: (b ++ 10 :: flattenSkip its)
        from rfl, List.cons_append, skipLoopGo_comment _ _ _ hsc, ih hw2]
      congr 1
      simp [List.mem_cons]

theorem skipLoopGo_digit (d : Int) (rest : List Int) (sg : Int)
    (hd : isdigitC d = true) :
    skipLoopGo (d :: rest) sg = some (d, sg, ⟨rest, false⟩) := by
  have hb : 48 ≤ d ∧ d ≤ 57 := by simpa [isdigitC] using hd
  rw [skipLoopGo, if_neg (by omega), if_pos hd]
  have h45 : ¬ d = 45 := by omega
  simp [h45]

theorem digitLoopGo_run (ds : List Int) (hds : ∀ x ∈ ds, isdigitC x = true) :
    ∀ c i : Int, isdigitC c = true → ∀ d : Int, isdigitC d = false →
    ∀ rest : List Int,
    digitLoopGo c i (ds ++ d :: rest) =
      (d, (c :: ds).foldl (fun a x => a * 10 + (x - 48)) i, ⟨rest, false⟩) := by
  induction ds with
  | nil =>
    intro c i hc d hd rest
    rw [List.nil_append, digitLoopGo, if_pos hc]
    cases rest with
    | nil => rw [digitLoopGo]; simp [hd]
    | cons r rs => rw [digitLoopGo]; simp [hd]
  | cons x ds ih =>
    intro c i hc d hd rest
    have hx : isdigitC x = true := hds x (List.mem_cons_self x ds)
    have hds2 : ∀ y ∈ ds, isdigitC y = true :=
      fun y hy => hds y (List.mem_cons_of_mem _ hy)
    rw [List.cons_append, digitLoopGo, if_pos hc, ih hds2 x _ hx d hd rest]
    simp

theorem getIntCont_sign (c sg : Int) (s : CStream) :
    getIntCont c sg s = ((getIntCont c 1 s).1 * sg, (getIntCont c 1 s).2) := by
  unfold getIntCont
  simp [mul_one]

/-- C3 (evidence of the code bug): running `Destroy(Construct(1, "a"))` on a
fresh heap in which every allocation succeeds ends with `EXIT_SUCCESS` but
with the block at address 1 — the `strdup` copy of the string — still
allocated: `FreeItem` runs only `free((void *)data_p)` and leaks the owned
string, although its own documentation says it de-allocates the string inside
the structure. -/
theorem freeItem_leaks_string :
    (destroyAfterConstruct 1 "a" ⟨0, fun _ => true, []⟩).map
        (fun r => (r.1, r.2.live)) = some (EXIT_SUCCESS, [1]) ∧
    ([1] : List Nat) ≠ [] :=
  ⟨rfl, by decide⟩

/-- C4 (evidence of the code bug): when the first allocation fails, `NewItem`
dereferences the NULL result of the unchecked `malloc`
(`newNode->number = theNumber`) instead of reporting allocation failure; and
when only the `strdup` allocation fails, `NewItem` returns normally with a
NULL `theString` pointer stored — a partially constructed record. -/
theorem newItem_unchecked_allocation :
    isNullDeref (NewItemH 13 "Hello" ⟨0, fun _ => false, []⟩) = true ∧
    okWithNullStr (NewItemH 13 "Hello" ⟨0, fun k => k == 0, []⟩) = true :=
  ⟨rfl, rfl⟩

/-- C5 counterexample: on the empty (NULL) list no element fails, yet both
`PrintList` and `DestroyList` return `EXIT_FAILURE`, not `EXIT_SUCCESS` as the
claim's no-failure clause requires. -/
theorem bulk_ops_empty_list_fail :
    PrintList [] = (EXIT_FAILURE, []) ∧ DestroyList [] = (EXIT_FAILURE, []) ∧
    EXIT_FAILURE ≠ EXIT_SUCCESS :=
  ⟨rfl, rfl, by decide⟩

theorem printLoop_all_some :
    ∀ l : List (Option myData), (∀ d ∈ l, d.isSome) →
      printLoop l = (EXIT_SUCCESS, l.filterMap id)
  | [], _ => rfl
  | d :: rest, h => by
    obtain ⟨r, hr⟩ := Option.isSome_iff_exists.mp (h d (List.mem_cons_self d rest))
    subst hr
    have ih := printLoop_all_some rest (fun x hx => h x (List.mem_cons_of_mem _ hx))
    rw [printLoop]
    simp [PrintItemOut, EXIT_FAILURE, EXIT_SUCCESS, ih]

theorem printLoop_first_none :
    ∀ (l₁ l₂ : List (Option myData)), (∀ d ∈ l₁, d.isSome) →
      printLoop (l₁ ++ none :: l₂) = (EXIT_FAILURE, l₁.filterMap id)
  | [], l₂, _ => by
    rw [List.nil_append, printLoop]
    simp [PrintItemOut]
  | d :: rest, l₂, h => by
    obtain ⟨r, hr⟩ := Option.isSome_iff_exists.mp (h d (List.mem_cons_self d rest))
    subst hr
    have ih := printLoop_first_none rest l₂ (fun x hx => h x (List.mem_cons_of_mem _ hx))
    rw [List.cons_append, printLoop]
    simp [PrintItemOut, EXIT_FAILURE, EXIT_SUCCESS, ih]

theorem destroyLoop_all_some :
    ∀ l : List (Option myData), (∀ d ∈ l, d.isSome) →
      destroyLoop l = (EXIT_SUCCESS, l.filterMap id)
  | [], _ => rfl
  | d :: rest, h => by
    obtain ⟨r, hr⟩ := Option.isSome_iff_exists.mp (h d (List.mem_cons_self d rest))
    subst hr
    have ih := destroyLoop_all_some rest (fun x hx => h x (List.mem_cons_of_mem _ hx))
    rw [destroyLoop]
    simp [FreeItemOut, EXIT_FAILURE, EXIT_SUCCESS, ih]

theorem destroyLoop_first_none :
    ∀ (l₁ l₂ : List (Option myData)), (∀ d ∈ l₁, d.isSome) →
      destroyLoop (l₁ ++ none :: l₂) = (EXIT_FAILURE, l₁.filterMap id)
  | [], l₂, _ => by
    rw [List.nil_append, destroyLoop]
    simp [FreeItemOut]
  | d :: rest, l₂, h => by
    obtain ⟨r, hr⟩ := Option.isSome_iff_exists.mp (h d (List.mem_cons_self d rest))
    subst hr
    have ih := destroyLoop_first_none rest l₂ (fun x hx => h x (List.mem_cons_of_mem _ hx))
    rw [List.cons_append, destroyLoop]
    simp [FreeItemOut, EXIT_FAILURE, EXIT_SUCCESS, ih]

/-- C5 amended: for every non-empty list the bulk operations halt on the
first reported per-element failure — when some element's data is NULL, the
loop returns `EXIT_FAILURE` having processed exactly the elements before the
first NULL — and when no element fails they process every element in list
order and return `EXIT_SUCCESS`.  (On the empty/NULL list both return
`EXIT_FAILURE`, the null-input policy, even though no element failed.) -/
theorem bulk_ops_halt_on_first_failure (l l₁ l₂ : List (Option myData)) :
    (l ≠ [] → (∀ d ∈ l, d.isSome) →
      PrintList l = (EXIT_SUCCESS, l.filterMap id) ∧
      DestroyList l = (EXIT_SUCCESS, l.filterMap id)) ∧
    (l = l₁ ++ none :: l₂ → (∀ d ∈ l₁, d.isSome) →
      PrintList l = (EXIT_FAILURE, l₁.filterMap id) ∧
      DestroyList l = (EXIT_FAILURE, l₁.filterMap id)) := by
  constructor
  · intro hne hall
    cases l with
    | nil => exact absurd rfl hne
    | cons d rest =>
      constructor
      · show printLoop (d :: rest) = _
        exact printLoop_all_some _ hall
      · show destroyLoop (d :: rest) = _
        exact destroyLoop_all_some _ hall
  · intro hl hall
    subst hl
    constructor
    · have : PrintList (l₁ ++ none :: l₂) = printLoop (l₁ ++ none :: l₂) := by
        cases l₁ <;> rfl
      rw [this]
      exact printLoop_first_none l₁ l₂ hall
    · have : DestroyList (l₁ ++ none :: l₂) = destroyLoop (l₁ ++ none :: l₂) := by
        cases l₁ <;> rfl
      rw [this]
      exact destroyLoop_first_none l₁ l₂ hall

/-- Witness for the amended C5: a list whose second element is NULL is
processed up to and excluding that element and reports failure. -/
theorem bulk_ops_halt_on_first_failure_witness :
    PrintList [some ⟨1, "a"⟩, none] = (EXIT_FAILURE, [⟨1, "a"⟩]) ∧
    DestroyList [some ⟨1, "a"⟩, none] = (EXIT_FAILURE, [⟨1, "a"⟩]) :=
  (bulk_ops_halt_on_first_failure [some ⟨1, "a"⟩, none] [some ⟨1, "a"⟩] []).2
    rfl (by decide)

theorem skipLoop_mk (l : List Int) (sg : Int) :
    skipLoop ⟨l, false⟩ sg = skipLoopGo l sg := rfl

/-- C6 counterexample: on the stream `"-a5"` the minus sign is followed by
the non-digit `a`, so by the claim the integer eventually read must not be
negated and the result would be 5; `GetInt` nevertheless returns −5, because
the skip loop sets `sign = -1` at any minus it scans and never resets it. -/
theorem getInt_sign_counterexample :
    GetInt ⟨[45, 97, 53], false⟩ = some (-5, ⟨[], true⟩) ∧ (-5 : Int) < 0 :=
  ⟨by simp [GetInt, skipLoop, skipLoopGo, skipComment, getIntCont, digitLoop,
      digitLoopGo, getc, ungetc, isdigitC, EOF], by decide⟩

/-- C6 amended: `GetInt` applies a negative sign exactly when at least one
minus sign occurs anywhere among the characters it skips before the first
digit outside comment bodies, whether or not that minus immediately precedes
the digit; a minus inside a skipped comment body does not count; the sign,
once set, is never reset, and is applied once even when several minus signs
occur.  The skipped prefix is quantified as an arbitrary sequence of plain
non-digit non-`#` characters and entire comments, and the sign is negative
iff a plain minus item occurs in it. -/
theorem getInt_sign_amended (items : List SkipItem)
    (hw : ∀ it ∈ items, skipItemOK it = true)
    (d : Int) (tl : List Int) (hd : isdigitC d = true) (v : Int) (s1 : CStream)
    (h : GetInt ⟨d :: tl, false⟩ = some (v, s1)) :
    GetInt ⟨flattenSkip items ++ d :: tl, false⟩ =
      some ((if SkipItem.plain 45 ∈ items then -v else v), s1) := by
  have hskip1 : skipLoop ⟨d :: tl, false⟩ 1 = some (d, 1, ⟨tl, false⟩) := by
    rw [skipLoop_mk, skipLoopGo_digit d tl 1 hd]
  have hskip2 : skipLoop ⟨flattenSkip items ++ d :: tl, false⟩ 1
      = some (d, if SkipItem.plain 45 ∈ items then -1 else 1, ⟨tl, false⟩) := by
    rw [skipLoop_mk, skipLoopGo_skip items hw _ 1, skipLoopGo_digit d tl _ hd]
  unfold GetInt at h ⊢
  rw [hskip1] at h
  rw [hskip2]
  simp only [Option.some.injEq] at h ⊢
  rw [getIntCont_sign]
  simp at h
  rw [h]
  by_cases hP : SkipItem.plain 45 ∈ items <;> simp [hP]

/-- Witness for the amended C6: reading `"#-\n5"` stays positive — the only
minus lies inside the skipped comment body — while reading `"-#z\n5"` yields
−5, since the plain minus before the comment sets the sign. -/
theorem getInt_sign_amended_witness :
    GetInt ⟨[35, 45, 10, 53], false⟩ = some (5, CStream.mk [] true) ∧
    GetInt ⟨[45, 35, 122, 10, 53], false⟩ = some (-5, CStream.mk [] true) := by
  have h5 : GetInt ⟨[53], false⟩ = some (5, ⟨[], true⟩) := by
    simp [GetInt, skipLoop, skipLoopGo, getIntCont, digitLoop, digitLoopGo,
      getc, isdigitC, EOF]
  constructor
  · have := getInt_sign_amended [SkipItem.comment [45]] (by decide) 53 []
      (by decide) 5 ⟨[], true⟩ h5
    simpa [flattenSkip] using this
  · have := getInt_sign_amended [SkipItem.plain 45, SkipItem.comment [122]]
      (by decide) 53 [] (by decide) 5 ⟨[], true⟩ h5
    simpa [flattenSkip] using this

/-- C7 counterexample: reading from the stream `"1ab"`, `GetInt` returns 1
but leaves the stream holding only `"b"`: the `a` that terminated the digit
run was consumed and never pushed back, so the stream is not positioned
immediately after the last digit as the claim states (that would leave
`"ab"`). -/
theorem getInt_position_counterexample :
    GetInt ⟨[49, 97, 98], false⟩ = some (1, ⟨[98], false⟩) ∧
    ([98] : List Int) ≠ [97, 98] :=
  ⟨by simp [GetInt, skipLoop, skipLoopGo, skipComment, getIntCont, digitLoop,
      digitLoopGo, getc, ungetc, isdigitC, EOF], by decide⟩

/-- C7 amended: when `GetInt` reads a digit run terminated by a non-digit
character, that terminating character is consumed and not restored; one
further character is then read as a lookahead and pushed back unless it is
end of input.  The stream is therefore left positioned one character past the
digit run's terminator (at end of input, with the end-of-file indicator set,
when nothing follows the terminator), not immediately after the last digit. -/
theorem getInt_position_amended (d0 : Int) (ds : List Int) (d : Int)
    (rest : List Int) (h0 : isdigitC d0 = true)
    (hds : ∀ x ∈ ds, isdigitC x = true) (hd : isdigitC d = false)
    (hrest : ∀ x ∈ rest, 0 ≤ x) :
    GetInt ⟨d0 :: (ds ++ d :: rest), false⟩ =
      some (decimalOf (d0 :: ds),
        if rest.isEmpty then ⟨[], true⟩ else ⟨rest, false⟩) := by
  have hskip : skipLoop ⟨d0 :: (ds ++ d :: rest), false⟩ 1
      = some (d0, 1, ⟨ds ++ d :: rest, false⟩) := by
    rw [skipLoop_mk, skipLoopGo_digit _ _ 1 h0]
  unfold GetInt
  rw [hskip]
  simp only [Option.some.injEq]
  unfold getIntCont digitLoop
  simp only [show (⟨ds ++ d :: rest, false⟩ : CStream).eofFlag = false from rfl]
  rw [if_neg (by simp)]
  rw [digitLoopGo_run ds hds d0 0 h0 d hd rest]
  cases rest with
  | nil => simp [getc, EOF, decimalOf, mul_one]
  | cons r rs =>
    have hr : 0 ≤ r := hrest r (List.mem_cons_self r rs)
    have hrne : ¬ r = (-1 : Int) := by omega
    simp [getc, ungetc, EOF, decimalOf, mul_one, hrne]

/-- Witness for the amended C7: on `"1ab"` the digit run `1` is terminated by
`a`, which is consumed; the lookahead `b` is pushed back, leaving `"b"`. -/
theorem getInt_position_amended_witness :
    GetInt ⟨[49, 97, 98], false⟩ = some (1, CStream.mk [98] false) := by
  have := getInt_position_amended 49 [] 97 [98] (by decide) (by decide)
    (by decide) (by decide)
  simpa [decimalOf] using this

/-- C8 (evidence of the code bug): on a stream that ends in a comment line
with no trailing newline (here `"#ab"`), the comment-skip loop
`do { c = getc(fp); } while (c != '\n');` never sees a newline — `getc`
returns `EOF` forever — so `GetInt` and `GetString` loop forever (the
divergence marker `none`), instead of terminating with the EndOfInput signal.
On a genuinely exhausted stream without a truncated comment both do signal
EndOfInput (`EOF` respectively NULL). -/
theorem tokenizer_truncated_comment_diverges :
    GetInt ⟨[35, 97, 98], false⟩ = none ∧
    GetString ⟨[35, 97, 98], false⟩ = none ∧
    GetInt ⟨[], false⟩ = some (EOF, ⟨[], true⟩) ∧
    (GetString ⟨[], false⟩).map GSOut.ret = some none := by
  refine ⟨?_, ?_, ?_, ?_⟩
  · simp [GetInt, skipLoop, skipLoopGo, skipComment]
  · simp [GetString, skipLoopA, skipLoopAGo, skipComment]
  · simp [GetInt, skipLoop, skipLoopGo, EOF]
  · simp [GetString, skipLoopA, skipLoopAGo]

set_option maxRecDepth 4000 in
/-- C9 (evidence of the code bug): on an input of 256 consecutive alphabetic
characters, the accumulation loop of `GetString` stores all 256 of them
(indices 0–255 of the 256-byte `buffer`) and then executes `buffer[i] = '\0'`
with `i = 256` — a write one past the end of the buffer, and 256 characters
of word content where the claim allows at most 255. -/
theorem getString_buffer_overflow :
    (GetString ⟨List.replicate 256 97 ++ [32], false⟩).map GSOut.termIdx
      = some (some 256) ∧
    (GetString ⟨List.replicate 256 97 ++ [32], false⟩).map
        (fun o => o.ret.map List.length) = some (some 256) := by
  have h1 : skipLoopA ⟨List.replicate 256 97 ++ [32], false⟩
      = some (97, ⟨List.replicate 255 97 ++ [32], false⟩) := by
    rw [show (List.replicate 256 97 : List Int) = 97 :: List.replicate 255 97
      from rfl]
    simp [skipLoopA, skipLoopAGo, isalphaC]
  constructor <;> (unfold GetString; rw [h1]; rfl)

/-- C10: `GetInt` reports exhaustion of the stream by returning `EOF`, the
integer −1, which is exactly the value returned after successfully parsing
the text `"-1"`; the two outcomes are indistinguishable by the return value
alone. -/
theorem getInt_eof_indistinguishable :
    (GetInt ⟨[], false⟩).map Prod.fst = some EOF ∧
    (GetInt ⟨[45, 49], false⟩).map Prod.fst = some EOF ∧
    EOF = -1 := by
  refine ⟨?_, ?_, rfl⟩
  · simp [GetInt, skipLoop, skipLoopGo, EOF]
  · simp [GetInt, skipLoop, skipLoopGo, getIntCont, digitLoop, digitLoopGo,
      getc, ungetc, isdigitC, EOF]
